import Mathlib

/-!
Verification of the SUMO traffic-analysis pipeline
(`notebooks/traffic_simulation_analysis.py`, class `SUMOTrafficSimulator`).

The Python state is three insertion-ordered dicts mapping edge ids to lists
(`edge_counts`, `edge_speeds`, `edge_occupancy`) plus a step counter.  We model
the dicts as insertion-ordered association lists, Python floats as rationals,
vehicle counts as naturals, and Python exceptions as `Option`/`Except` results.
File-system effects of the export methods are modelled by an explicit `World`
value holding the files written so far and the set of unwritable paths.
-/

namespace TrafficSim

/-- Raw per-edge readings exposed by TraCI at one simulation step:
`getLastStepVehicleNumber`, `getLastStepMeanSpeed`, `getLastStepOccupancy`. -/
structure TickReading where
  count : Nat
  speed : ℚ
  occupancy : ℚ

/-- One simulation step as seen by `_collect_step_data`: the list of edge ids
returned by `traci.edge.getIDList()` and the readings for each edge. -/
structure Tick where
  edges : List String
  read : String → TickReading

/-- Mutable state of `SUMOTrafficSimulator` relevant to data collection:
fields `edge_counts`, `edge_speeds`, `edge_occupancy` (insertion-ordered
dicts of per-edge series) and `simulation_steps`. -/
structure SimState where
  edge_counts : List (String × List Nat)
  edge_speeds : List (String × List ℚ)
  edge_occupancy : List (String × List ℚ)
  simulation_steps : Nat

/-- Initial state established by `__init__`: empty dicts, zero steps. -/
def initState : SimState := ⟨[], [], [], 0⟩

/-- Lookup in an insertion-ordered association list (Python dict read `d[k]`);
`none` models a `KeyError`. -/
def alookup {β : Type} : List (String × β) → String → Option β
  | [], _ => none
  | (k, v) :: rest, e => if k = e then some v else alookup rest e

/-- The Python idiom `if e not in d: d[e] = []` followed by `d[e].append(v)`:
appends `v` to the series of `e`, creating the entry at the end of the dict
on first sight of the key. -/
def appendEntry {β : Type} : List (String × List β) → String → β → List (String × List β)
  | [], e, v => [(e, [v])]
  | (k, vs) :: rest, e, v =>
      if k = e then (k, vs ++ [v]) :: rest else (k, vs) :: appendEntry rest e v

/-- Body of the `for edge_id in traci.edge.getIDList()` loop of
`_collect_step_data`, for a single edge: appends the three readings to the
three per-edge series. -/
def ingestEdge (s : SimState) (t : Tick) (e : String) : SimState :=
  { s with
    edge_counts := appendEntry s.edge_counts e (t.read e).count
    edge_speeds := appendEntry s.edge_speeds e (t.read e).speed
    edge_occupancy := appendEntry s.edge_occupancy e (t.read e).occupancy }

/-- Method `_collect_step_data`: ingest every edge reported for this step. -/
def collect_step_data (s : SimState) (t : Tick) : SimState :=
  t.edges.foldl (fun acc e => ingestEdge acc t e) s

/-- One iteration of the main loop of `run_simulation`: collect step data,
then `self.simulation_steps += 1`. -/
def simTick (s : SimState) (t : Tick) : SimState :=
  let s' := collect_step_data s t
  { s' with simulation_steps := s'.simulation_steps + 1 }

/-- Running the collection loop from an arbitrary state. -/
def applyTicks (s : SimState) (ticks : List Tick) : SimState :=
  ticks.foldl simTick s

/-- The whole collection phase of `run_simulation`: the sequence of steps
delivered by the driver, ingested starting from the initial state. -/
def runSim (ticks : List Tick) : SimState :=
  applyTicks initState ticks

/-- Length of the vehicle-count series currently stored for edge `e`
(`len(self.edge_counts[e])`, with 0 for an absent key). -/
def seriesLen (s : SimState) (e : String) : Nat :=
  ((alookup s.edge_counts e).getD []).length

/-- Per-edge aggregate produced by `_calculate_metrics`: the four-field dict
`avg_vehicles / max_vehicles / avg_speed / avg_occupancy`. -/
structure EdgeMetrics where
  avg_vehicles : ℚ
  max_vehicles : Nat
  avg_speed : ℚ
  avg_occupancy : ℚ
deriving DecidableEq

/-- Python `max` over a list of naturals, with 0 seed (the seed is irrelevant
on the non-empty lists the code applies it to). -/
def listMaxNat (l : List Nat) : Nat := l.foldl max 0

/-- Vehicle-count series viewed as rationals, as Python's float division
`sum(counts) / len(counts)` implicitly does. -/
def countsQ (cs : List Nat) : List ℚ := cs.map fun n => (n : ℚ)

/-- Body of the `for edge_id in self.edge_counts.keys()` loop of
`_calculate_metrics` for one edge: reads the three series and computes the
four aggregates.  `none` models the exceptions the Python line can raise:
`KeyError` on a missing key, `ZeroDivisionError` (or `max` on an empty
sequence) on an empty series. -/
def metricsFor (s : SimState) (e : String) : Option EdgeMetrics :=
  match alookup s.edge_counts e, alookup s.edge_speeds e, alookup s.edge_occupancy e with
  | some cs, some sp, some oc =>
      if cs = [] ∨ sp = [] ∨ oc = [] then none
      else some
        { avg_vehicles := (countsQ cs).sum / (cs.length : ℚ)
          max_vehicles := listMaxNat cs
          avg_speed := sp.sum / (sp.length : ℚ)
          avg_occupancy := oc.sum / (oc.length : ℚ) }
  | _, _, _ => none

/-- The loop of `_calculate_metrics` over a given key list, building the
insertion-ordered result dict; `none` models a raised exception. -/
def metricsList (s : SimState) : List String → Option (List (String × EdgeMetrics))
  | [] => some []
  | e :: rest =>
    match metricsFor s e, metricsList s rest with
    | some m, some r => some ((e, m) :: r)
    | _, _ => none

/-- Method `_calculate_metrics`: iterates over `self.edge_counts.keys()`. -/
def calculate_metrics (s : SimState) : Option (List (String × EdgeMetrics)) :=
  metricsList s (s.edge_counts.map Prod.fst)

/-- Method `_calculate_metrics` viewed with its state threading made explicit:
the Python method reads `self.edge_counts`/`edge_speeds`/`edge_occupancy` and
builds a fresh dict; it never assigns to `self`, so the post-state is the
pre-state unchanged. -/
def calculate_metrics_method (s : SimState) :
    Option (List (String × EdgeMetrics)) × SimState :=
  (calculate_metrics s, s)

/-- The accumulator invariant: the three dicts have the same keys in the same
order, and every stored series is non-empty (a series is created only when
its first observation is appended). -/
def Invariant (s : SimState) : Prop :=
  s.edge_speeds.map Prod.fst = s.edge_counts.map Prod.fst ∧
  s.edge_occupancy.map Prod.fst = s.edge_counts.map Prod.fst ∧
  (∀ p ∈ s.edge_counts, p.2 ≠ []) ∧
  (∀ p ∈ s.edge_speeds, p.2 ≠ []) ∧
  (∀ p ∈ s.edge_occupancy, p.2 ≠ [])

instance (s : SimState) : Decidable (Invariant s) := by
  unfold Invariant; infer_instance

/-- Filter applied by `print_results` (lines 176-179): keep entries whose id
does not start with the reserved marker character and whose average vehicle
count exceeds the 0.1 threshold. -/
def significant_edges (metrics : List (String × EdgeMetrics)) :
    List (String × EdgeMetrics) :=
  metrics.filter fun p => !p.1.startsWith ":" && decide ((0.1 : ℚ) < p.2.avg_vehicles)

/-- The identical filter as re-stated in `visualize_results` (lines 282-285). -/
def visualization_edges (metrics : List (String × EdgeMetrics)) :
    List (String × EdgeMetrics) :=
  metrics.filter fun p => !p.1.startsWith ":" && decide ((0.1 : ℚ) < p.2.avg_vehicles)

/-- Comparison used by `sorted(..., key=lambda x: x[1]['avg_vehicles'],
reverse=True)`: an element sorts no later than another when its key is no
smaller. -/
def edge_le (p q : String × EdgeMetrics) : Bool :=
  decide (q.2.avg_vehicles ≤ p.2.avg_vehicles)

/-- Python's `sorted` with `reverse=True` is a stable descending sort; we model
it by the (stable) merge sort of the core library. -/
def sorted_edges (l : List (String × EdgeMetrics)) : List (String × EdgeMetrics) :=
  l.mergeSort edge_le

/-- The summary figures computed at the end of `print_results` (lines
197-204). -/
structure Summary where
  total_edges : Nat
  highest_edge : String
  highest_avg : ℚ
  network_avg : ℚ
  total_steps : Nat
deriving DecidableEq

/-- Method `print_results`: filters, sorts, then computes the summary
statistics.  The summary indexes `sorted_edges[0]` and divides by
`len(significant_edges)`; `none` models the `IndexError`/`ZeroDivisionError`
raised when the filtered set is empty. -/
def print_results (steps : Nat) (metrics : List (String × EdgeMetrics)) :
    Option Summary :=
  match (sorted_edges (significant_edges metrics)).head? with
  | none => none
  | some top =>
      some ⟨(significant_edges metrics).length, top.1, top.2.avg_vehicles,
            ((significant_edges metrics).map fun p => p.2.avg_vehicles).sum /
              ((((significant_edges metrics).map fun p => p.2.avg_vehicles)).length : ℚ),
            steps⟩

/-- Header row written by `export_to_csv`. -/
def csv_fieldnames : List String :=
  ["edge_id", "avg_vehicles", "max_vehicles", "avg_speed", "avg_occupancy"]

/-- One CSV data row: the writer renders each field of the row dict. -/
def csvRow (p : String × EdgeMetrics) : List String :=
  [p.1, toString p.2.avg_vehicles, toString p.2.max_vehicles,
   toString p.2.avg_speed, toString p.2.avg_occupancy]

/-- The full table written by `export_to_csv`: header then one row per entry
of the (unfiltered) metrics dict, in dict iteration order. -/
def csvTable (metrics : List (String × EdgeMetrics)) : List (List String) :=
  csv_fieldnames :: metrics.map csvRow

/-- Contents of a file written by one of the exports. -/
inductive FileData where
  | csvFile (rows : List (List String))
  | jsonFile (config_file : String) (total_steps : Nat) (timestamp : String)
      (edge_metrics : List (String × EdgeMetrics))
deriving DecidableEq

/-- File-system model: the files written so far, and the paths on which
`open(..., 'w')`/writing raises an `OSError`. -/
structure World where
  written : List (String × FileData)
  bad : List String
deriving DecidableEq

/-- One attempt to open and write a file, which either succeeds or raises. -/
def writeFile (w : World) (fn : String) (d : FileData) : Except String World :=
  if fn ∈ w.bad then Except.error "I/O error"
  else Except.ok { w with written := w.written ++ [(fn, d)] }

/-- Method `export_to_csv` (lines 219-238): the whole write is wrapped in
`try/except Exception`, so a failure leaves the world unchanged and the
method still returns normally. -/
def export_to_csv (w : World) (metrics : List (String × EdgeMetrics))
    (filename : String) : World :=
  match writeFile w filename (FileData.csvFile (csvTable metrics)) with
  | Except.ok w' => w'
  | Except.error _ => w

/-- Method `export_to_json` (lines 252-268): writes `simulation_info`
(config path, total steps, timestamp) plus the unfiltered `edge_metrics`;
the write is likewise wrapped in `try/except Exception`. -/
def export_to_json (w : World) (config_path : String) (steps : Nat)
    (timestamp : String) (metrics : List (String × EdgeMetrics))
    (filename : String) : World :=
  match writeFile w filename (FileData.jsonFile config_path steps timestamp metrics) with
  | Except.ok w' => w'
  | Except.error _ => w

/-- The export sequence of `main`: `export_to_csv` then `export_to_json`. -/
def run_exports (w : World) (config_path : String) (steps : Nat)
    (timestamp : String) (metrics : List (String × EdgeMetrics))
    (csv_name json_name : String) : World :=
  export_to_json (export_to_csv w metrics csv_name) config_path steps timestamp
    metrics json_name

/-- The hard-coded probe list of `setup_sumo_environment`. -/
def common_paths : List String :=
  ["C:/Program Files (x86)/Eclipse/Sumo", "/usr/share/sumo", "/usr/local/share/sumo"]

/-- Ambient process environment seen by `setup_sumo_environment`: the value of
the `SUMO_HOME` environment variable if set, and which paths `os.path.exists`
reports as present. -/
structure OSEnv where
  sumo_home : Option String
  path_exists : String → Bool

/-- Python truthiness of the optional `sumo_home` argument (`if sumo_home:`):
`None` and the empty string are falsy. -/
def truthy : Option String → Bool
  | none => false
  | some s => !(s == "")

/-- Method `setup_sumo_environment` (lines 48-77): use the argument if truthy,
else keep an already-set `SUMO_HOME`, else probe the common installation
paths; `Except.error` models the raised `EnvironmentError`.  The returned
string is the resulting `SUMO_HOME` value. -/
def setup_sumo_environment (env : OSEnv) (sumo_home : Option String) :
    Except String String :=
  if truthy sumo_home then Except.ok (sumo_home.getD "")
  else if env.sumo_home.isSome then Except.ok (env.sumo_home.getD "")
  else
    match common_paths.find? env.path_exists with
    | some p => Except.ok p
    | none => Except.error "SUMO_HOME not set and could not auto-detect SUMO installation"

/-- First scenario tick of the spec's test scenario: both edges present
(`edge1` count 2, speed 10; `edge2` count 0). -/
def tick1 : Tick :=
  ⟨["edge1", "edge2"], fun e => if e = "edge1" then ⟨2, 10, 0⟩ else ⟨0, 0, 0⟩⟩

/-- Second scenario tick: both edges present (`edge1` count 4, speed 12). -/
def tick2 : Tick :=
  ⟨["edge1", "edge2"], fun e => if e = "edge1" then ⟨4, 12, 0⟩ else ⟨0, 0, 0⟩⟩

/-- Third scenario tick: only `edge1` is present (count 6, speed 14). -/
def tick3 : Tick := ⟨["edge1"], fun _ => ⟨6, 14, 0⟩⟩

/-- The scenario run: `edge1` observed with counts `[2,4,6]` and speeds
`[10,12,14]`, `edge2` observed only with counts `[0,0]`. -/
def scenarioTicks : List Tick := [tick1, tick2, tick3]

/-- Accumulator state at the end of the scenario run. -/
def scenarioState : SimState := runSim scenarioTicks

/-- A state with an entity whose series is empty; such a state is never
produced by the ingest operation, and aggregation fails on it. -/
def emptySeriesState : SimState := ⟨[("e", [])], [("e", [])], [("e", [])], 0⟩

/-- Sort-order example entity A with average 5, inserted first. -/
def eA : String × EdgeMetrics := ("A", ⟨5, 5, 1, 0⟩)

/-- Sort-order example entity B, tied with A at average 5, inserted second. -/
def eB : String × EdgeMetrics := ("B", ⟨5, 3, 2, 0⟩)

/-- Sort-order example entity C with average 2, inserted third. -/
def eC : String × EdgeMetrics := ("C", ⟨2, 2, 3, 0⟩)

/-- A metrics dict in which no entity is significant: one id starts with the
reserved marker, the other has average vehicles below the threshold. -/
def insignificantMetrics : List (String × EdgeMetrics) :=
  [(":junction0", ⟨5, 5, 1, 0⟩), ("edge9", ⟨1/20, 1, 1, 0⟩)]

/-- An environment with `SUMO_HOME` unset and no probe path present. -/
def noSumoEnv : OSEnv := ⟨none, fun _ => false⟩

/-! ## Association-list lemmas -/

theorem alookup_appendEntry_self {β : Type} (m : List (String × List β)) (e : String) (v : β) :
    alookup (appendEntry m e v) e = some ((alookup m e).getD [] ++ [v]) := by
  induction m with
  | nil => simp [alookup, appendEntry]
  | cons p rest ih =>
    obtain ⟨k, vs⟩ := p
    by_cases h : k = e
    · subst h; simp [alookup, appendEntry]
    · simp [alookup, appendEntry, h, ih]

theorem alookup_appendEntry_ne {β : Type} (m : List (String × List β)) (e k : String) (v : β)
    (h : k ≠ e) : alookup (appendEntry m e v) k = alookup m k := by
  have hek : ¬ e = k := fun hh => h hh.symm
  induction m with
  | nil => simp [alookup, appendEntry, hek]
  | cons p rest ih =>
    obtain ⟨k', vs⟩ := p
    by_cases h' : k' = e
    · subst h'
      simp [alookup, appendEntry, hek]
    · by_cases hk : k' = k <;> simp [alookup, appendEntry, h', hk, h, ih]

theorem alookup_isSome_iff_mem {β : Type} (m : List (String × β)) (e : String) :
    (alookup m e).isSome ↔ e ∈ m.map Prod.fst := by
  induction m with
  | nil => simp [alookup]
  | cons p rest ih =>
    obtain ⟨k, v⟩ := p
    by_cases h : k = e
    · subst h; simp [alookup]
    · have hek : ¬ e = k := fun hh => h hh.symm
      simp [alookup, h, ih, hek]

theorem keys_appendEntry {β : Type} (m : List (String × List β)) (e : String) (v : β) :
    (appendEntry m e v).map Prod.fst =
      if e ∈ m.map Prod.fst then m.map Prod.fst else m.map Prod.fst ++ [e] := by
  induction m with
  | nil => simp [appendEntry]
  | cons p rest ih =>
    obtain ⟨k, vs⟩ := p
    by_cases h : k = e
    · subst h; simp [appendEntry]
    · have hne : ¬ e = k := fun hh => h hh.symm
      by_cases hmem : e ∈ rest.map Prod.fst <;>
        simp [appendEntry, h, hne, hmem, ih]

theorem mem_of_alookup_eq_some {β : Type} {m : List (String × β)} {e : String} {v : β}
    (h : alookup m e = some v) : (e, v) ∈ m := by
  induction m with
  | nil => simp [alookup] at h
  | cons p rest ih =>
    obtain ⟨k, v'⟩ := p
    by_cases hk : k = e
    · subst hk
      simp [alookup] at h
      simp [h]
    · simp [alookup, hk] at h
      exact List.mem_cons_of_mem _ (ih h)

theorem appendEntry_nonempty {β : Type} (m : List (String × List β)) (e : String) (v : β)
    (h : ∀ p ∈ m, p.2 ≠ []) : ∀ p ∈ appendEntry m e v, p.2 ≠ [] := by
  induction m with
  | nil =>
    intro p hp
    simp [appendEntry] at hp
    simp [hp]
  | cons q rest ih =>
    obtain ⟨k, vs⟩ := q
    intro p hp
    by_cases hk : k = e
    · subst hk
      simp [appendEntry] at hp
      rcases hp with hp | hp
      · simp [hp]
      · exact h p (List.mem_cons_of_mem _ hp)
    · simp [appendEntry, hk] at hp
      rcases hp with hp | hp
      · exact h p (by simp [hp])
      · exact ih (fun q hq => h q (List.mem_cons_of_mem _ hq)) p hp

/-! ## Invariant preservation -/

theorem invariant_ingestEdge {s : SimState} (t : Tick) (e : String) (h : Invariant s) :
    Invariant (ingestEdge s t e) := by
  obtain ⟨hsp, hoc, hc, hs, ho⟩ := h
  refine ⟨?_, ?_, ?_, ?_, ?_⟩
  · simp only [ingestEdge, keys_appendEntry, hsp]
  · simp only [ingestEdge, keys_appendEntry, hoc]
  · exact appendEntry_nonempty _ _ _ hc
  · exact appendEntry_nonempty _ _ _ hs
  · exact appendEntry_nonempty _ _ _ ho

theorem invariant_collect_step_data {s : SimState} (t : Tick) (h : Invariant s) :
    Invariant (collect_step_data s t) := by
  unfold collect_step_data
  induction t.edges generalizing s with
  | nil => exact h
  | cons e rest ih => exact ih (invariant_ingestEdge t e h)

theorem invariant_simTick {s : SimState} (t : Tick) (h : Invariant s) :
    Invariant (simTick s t) := by
  have := invariant_collect_step_data t h
  unfold simTick
  obtain ⟨h1, h2, h3, h4, h5⟩ := this
  exact ⟨h1, h2, h3, h4, h5⟩

theorem invariant_applyTicks {s : SimState} (ticks : List Tick) (h : Invariant s) :
    Invariant (applyTicks s ticks) := by
  unfold applyTicks
  induction ticks generalizing s with
  | nil => exact h
  | cons t rest ih => exact ih (invariant_simTick t h)

theorem invariant_initState : Invariant initState := by
  refine ⟨rfl, rfl, ?_, ?_, ?_⟩ <;> intro p hp <;> simp [initState] at hp

theorem invariant_runSim (ticks : List Tick) : Invariant (runSim ticks) :=
  invariant_applyTicks ticks invariant_initState

/-! ## Totality of the aggregator on invariant states -/

theorem metricsFor_isSome {s : SimState} (h : Invariant s) {e : String}
    (he : e ∈ s.edge_counts.map Prod.fst) : (metricsFor s e).isSome := by
  obtain ⟨hsp, hoc, hc, hs, ho⟩ := h
  have h1 : (alookup s.edge_counts e).isSome := (alookup_isSome_iff_mem _ _).mpr he
  have h2 : (alookup s.edge_speeds e).isSome :=
    (alookup_isSome_iff_mem _ _).mpr (by rw [hsp]; exact he)
  have h3 : (alookup s.edge_occupancy e).isSome :=
    (alookup_isSome_iff_mem _ _).mpr (by rw [hoc]; exact he)
  obtain ⟨cs, hcs⟩ := Option.isSome_iff_exists.mp h1
  obtain ⟨sp, hsp'⟩ := Option.isSome_iff_exists.mp h2
  obtain ⟨oc, hoc'⟩ := Option.isSome_iff_exists.mp h3
  have hcne : cs ≠ [] := hc _ (mem_of_alookup_eq_some hcs)
  have hsne : sp ≠ [] := hs _ (mem_of_alookup_eq_some hsp')
  have hone : oc ≠ [] := ho _ (mem_of_alookup_eq_some hoc')
  simp [metricsFor, hcs, hsp', hoc', hcne, hsne, hone]

theorem metricsList_eq_some {s : SimState} (es : List String)
    (h : ∀ e ∈ es, (metricsFor s e).isSome) :
    ∃ r, metricsList s es = some r ∧ r.map Prod.fst = es ∧
      ∀ p ∈ r, metricsFor s p.1 = some p.2 := by
  induction es with
  | nil => exact ⟨[], rfl, rfl, by simp⟩
  | cons e rest ih =>
    obtain ⟨m, hm⟩ := Option.isSome_iff_exists.mp (h e (by simp))
    obtain ⟨r, hr, hkeys, hvals⟩ := ih (fun x hx => h x (List.mem_cons_of_mem _ hx))
    refine ⟨(e, m) :: r, ?_, ?_, ?_⟩
    · simp [metricsList, hm, hr]
    · simp [hkeys]
    · intro p hp
      rcases List.mem_cons.mp hp with hp | hp
      · subst hp; exact hm
      · exact hvals p hp

/-! ## Facts about `listMaxNat` -/

theorem foldl_max_shift (l : List Nat) (a b : Nat) :
    l.foldl max (max a b) = max a (l.foldl max b) := by
  induction l generalizing b with
  | nil => rfl
  | cons x l ih =>
    simp only [List.foldl_cons]
    rw [max_assoc]
    exact ih (max b x)

theorem listMaxNat_cons (x : Nat) (l : List Nat) :
    listMaxNat (x :: l) = max x (listMaxNat l) := by
  unfold listMaxNat
  simp only [List.foldl_cons]
  rw [max_comm 0 x, foldl_max_shift]

theorem listMaxNat_mem {l : List Nat} (h : l ≠ []) : listMaxNat l ∈ l := by
  induction l with
  | nil => exact absurd rfl h
  | cons x l ih =>
    rw [listMaxNat_cons]
    rcases l with _ | ⟨y, l⟩
    · simp [listMaxNat]
    · rcases le_total x (listMaxNat (y :: l)) with hle | hle
      · rw [max_eq_right hle]
        exact List.mem_cons_of_mem _ (ih (by simp))
      · rw [max_eq_left hle]
        simp

theorem le_listMaxNat {l : List Nat} : ∀ x ∈ l, x ≤ listMaxNat l := by
  induction l with
  | nil => simp
  | cons y l ih =>
    intro x hx
    rw [listMaxNat_cons]
    rcases List.mem_cons.mp hx with hx | hx
    · subst hx; exact le_max_left _ _
    · exact le_trans (ih x hx) (le_max_right _ _)

/-! ## Series-length accounting -/

theorem seriesLen_ingestEdge (s : SimState) (t : Tick) (e k : String) :
    seriesLen (ingestEdge s t e) k = seriesLen s k + (if k = e then 1 else 0) := by
  unfold seriesLen ingestEdge
  by_cases h : k = e
  · subst h; simp [alookup_appendEntry_self]
  · simp [alookup_appendEntry_ne _ _ _ _ h, h]

theorem seriesLen_collect_step_data (s : SimState) (t : Tick) (k : String) :
    seriesLen (collect_step_data s t) k = seriesLen s k + t.edges.count k := by
  unfold collect_step_data
  generalize t.edges = es
  induction es generalizing s with
  | nil => simp
  | cons e rest ih =>
    simp only [List.foldl_cons, List.count_cons]
    rw [ih (ingestEdge s t e), seriesLen_ingestEdge]
    by_cases h : k = e
    · subst h; simp; omega
    · have hek : ¬ e = k := fun hh => h hh.symm
      simp [h, beq_iff_eq, hek]

theorem seriesLen_simTick (s : SimState) (t : Tick) (k : String) :
    seriesLen (simTick s t) k = seriesLen s k + t.edges.count k := by
  have h := seriesLen_collect_step_data s t k
  unfold simTick seriesLen at h ⊢
  exact h

theorem seriesLen_applyTicks (ticks : List Tick) (s : SimState) (k : String) :
    seriesLen (applyTicks s ticks) k =
      seriesLen s k + (ticks.map fun u => u.edges.count k).sum := by
  induction ticks generalizing s with
  | nil => simp [applyTicks]
  | cons t rest ih =>
    show seriesLen (applyTicks (simTick s t) rest) k = _
    rw [ih (simTick s t), seriesLen_simTick]
    simp [Nat.add_assoc]

theorem count_sum_eq_countP {ticks : List Tick} {e : String}
    (hnd : ∀ u ∈ ticks, u.edges.Nodup) :
    (ticks.map fun u => u.edges.count e).sum =
      ticks.countP fun u => decide (e ∈ u.edges) := by
  induction ticks with
  | nil => simp
  | cons t rest ih =>
    simp only [List.map_cons, List.sum_cons, List.countP_cons]
    rw [ih (fun u hu => hnd u (List.mem_cons_of_mem _ hu))]
    rw [List.count_eq_of_nodup (hnd t (by simp))]
    by_cases h : e ∈ t.edges <;> simp [h, Nat.add_comm]

theorem isSome_alookup_appendEntry {β : Type} (m : List (String × List β)) (e k : String)
    (v : β) (h : (alookup m k).isSome) : (alookup (appendEntry m e v) k).isSome := by
  by_cases hk : k = e
  · subst hk; simp [alookup_appendEntry_self]
  · rw [alookup_appendEntry_ne _ _ _ _ hk]; exact h

theorem present_collect_step_data (s : SimState) (t : Tick) (k : String)
    (h : (alookup s.edge_counts k).isSome) :
    (alookup (collect_step_data s t).edge_counts k).isSome := by
  unfold collect_step_data
  generalize t.edges = es
  induction es generalizing s with
  | nil => exact h
  | cons e rest ih => exact ih (ingestEdge s t e) (isSome_alookup_appendEntry _ _ _ _ h)

theorem present_applyTicks (ticks : List Tick) (s : SimState) (k : String)
    (h : (alookup s.edge_counts k).isSome) :
    (alookup (applyTicks s ticks).edge_counts k).isSome := by
  induction ticks generalizing s with
  | nil => exact h
  | cons t rest ih =>
    exact ih (simTick s t) (present_collect_step_data s t k h)

/-! ## Inversion of a successful aggregation -/

theorem metricsFor_eq_some {s : SimState} {e : String} {m : EdgeMetrics}
    (h : metricsFor s e = some m) :
    ∃ cs sp oc, alookup s.edge_counts e = some cs ∧
      alookup s.edge_speeds e = some sp ∧
      alookup s.edge_occupancy e = some oc ∧
      cs ≠ [] ∧ sp ≠ [] ∧ oc ≠ [] ∧
      m = ⟨(countsQ cs).sum / (cs.length : ℚ), listMaxNat cs,
           sp.sum / (sp.length : ℚ), oc.sum / (oc.length : ℚ)⟩ := by
  unfold metricsFor at h
  cases hc : alookup s.edge_counts e with
  | none => rw [hc] at h; exact absurd h (by simp)
  | some cs =>
    cases hs : alookup s.edge_speeds e with
    | none => rw [hc, hs] at h; exact absurd h (by simp)
    | some sp =>
      cases ho : alookup s.edge_occupancy e with
      | none => rw [hc, hs, ho] at h; exact absurd h (by simp)
      | some oc =>
        rw [hc, hs, ho] at h
        by_cases hemp : cs = [] ∨ sp = [] ∨ oc = []
        · simp [hemp] at h
        · push_neg at hemp
          obtain ⟨h1, h2, h3⟩ := hemp
          refine ⟨cs, sp, oc, rfl, rfl, rfl, h1, h2, h3, ?_⟩
          simp [h1, h2, h3] at h
          exact h.symm

/-- The aggregator never raises on an invariant-satisfying state. -/
theorem calculate_metrics_isSome {s : SimState} (h : Invariant s) :
    (calculate_metrics s).isSome := by
  obtain ⟨r, hr, -, -⟩ :=
    metricsList_eq_some (s.edge_counts.map Prod.fst) (fun e he => metricsFor_isSome h he)
  unfold calculate_metrics
  rw [hr]
  rfl

/-! ## Claim theorems -/

/-- C1: on every accumulator state satisfying the accumulator invariant,
`_calculate_metrics` succeeds and returns a mapping whose domain is exactly
the set of entities with at least one observation (the keys of
`edge_counts`), where for each entity `avg_vehicles` is the arithmetic mean
of its vehicle-count series, `max_vehicles` its maximum, `avg_speed` and
`avg_occupancy` the arithmetic means of the speed and occupancy series; in
particular on the spec scenario (counts `[2,4,6]`, speeds `[10,12,14]` for
`edge1`; counts `[0,0]` for `edge2`) it yields `avg_vehicles=4`,
`max_vehicles=6`, `avg_speed=12` for `edge1` and `avg_vehicles=0` for
`edge2`. -/
theorem calculate_metrics_correct (s : SimState) (h : Invariant s) :
    (∃ l, calculate_metrics s = some l
      ∧ l.map Prod.fst = s.edge_counts.map Prod.fst
      ∧ ∀ p ∈ l, ∃ cs sp oc,
          alookup s.edge_counts p.1 = some cs ∧
          alookup s.edge_speeds p.1 = some sp ∧
          alookup s.edge_occupancy p.1 = some oc ∧
          p.2.avg_vehicles = (countsQ cs).sum / (cs.length : ℚ) ∧
          p.2.max_vehicles ∈ cs ∧ (∀ x ∈ cs, x ≤ p.2.max_vehicles) ∧
          p.2.avg_speed = sp.sum / (sp.length : ℚ) ∧
          p.2.avg_occupancy = oc.sum / (oc.length : ℚ))
    ∧ calculate_metrics scenarioState =
        some [("edge1", ⟨4, 6, 12, 0⟩), ("edge2", ⟨0, 0, 0, 0⟩)] := by
  constructor
  · obtain ⟨r, hr, hkeys, hvals⟩ :=
      metricsList_eq_some (s.edge_counts.map Prod.fst) (fun e he => metricsFor_isSome h he)
    refine ⟨r, hr, hkeys, ?_⟩
    intro p hp
    obtain ⟨cs, sp, oc, h1, h2, h3, hcne, hsne, hone, hm⟩ :=
      metricsFor_eq_some (hvals p hp)
    refine ⟨cs, sp, oc, h1, h2, h3, by rw [hm], ?_, ?_, by rw [hm], by rw [hm]⟩
    · rw [hm]; exact listMaxNat_mem hcne
    · rw [hm]; exact le_listMaxNat
  · with_unfolding_all decide

/-- C1 witness: the scenario state satisfies the invariant and the theorem
applies to it. -/
theorem calculate_metrics_correct_witness :
    Invariant scenarioState ∧ (calculate_metrics scenarioState).isSome := by
  refine ⟨by decide, ?_⟩
  obtain ⟨l, hl, -, -⟩ := (calculate_metrics_correct scenarioState (by decide)).1
  rw [hl]
  rfl

/-- C2: aggregation of an entity whose three series are all present can fail
only when one of the series has zero length, and every state produced by the
ingest operation satisfies the accumulator invariant, under which aggregation
never fails: the division-by-zero branch is unreachable on reachable
states. -/
theorem division_by_zero_unreachable :
    (∀ (s : SimState) (e : String) (cs : List Nat) (sp oc : List ℚ),
        alookup s.edge_counts e = some cs → alookup s.edge_speeds e = some sp →
        alookup s.edge_occupancy e = some oc → metricsFor s e = none →
        cs = [] ∨ sp = [] ∨ oc = [])
  ∧ (∀ ticks : List Tick,
        Invariant (runSim ticks) ∧ (calculate_metrics (runSim ticks)).isSome) := by
  constructor
  · intro s e cs sp oc h1 h2 h3 h4
    by_cases hemp : cs = [] ∨ sp = [] ∨ oc = []
    · exact hemp
    · exfalso
      push_neg at hemp
      simp [metricsFor, h1, h2, h3, hemp.1, hemp.2.1, hemp.2.2] at h4
  · intro ticks
    exact ⟨invariant_runSim ticks, calculate_metrics_isSome (invariant_runSim ticks)⟩

/-- C2 witness: the failure case really is triggered by a zero-length series
(on a state never produced by ingest), and on the concrete scenario run the
aggregator succeeds. -/
theorem division_by_zero_unreachable_witness :
    (([] : List Nat) = [] ∨ ([] : List ℚ) = [] ∨ ([] : List ℚ) = []) ∧
    Invariant (runSim scenarioTicks) ∧ (calculate_metrics (runSim scenarioTicks)).isSome := by
  constructor
  · exact division_by_zero_unreachable.1 emptySeriesState "e" [] [] []
      (by decide) (by decide) (by decide) (by decide)
  · exact division_by_zero_unreachable.2 scenarioTicks

/-- C5: after ingesting one further step `t` in which edge `e` is active, the
length of `e`'s series equals the number of prior steps in which `e` was
active plus one; moreover extending a run never shrinks any series and never
removes an entity from the state. -/
theorem series_length_spec (ticks more : List Tick) (t : Tick) (e : String)
    (hnd : ∀ u ∈ ticks, u.edges.Nodup) (ht : t.edges.Nodup) (ha : e ∈ t.edges) :
    (seriesLen (runSim (ticks ++ [t])) e =
      (ticks.countP fun u => decide (e ∈ u.edges)) + 1)
  ∧ (∀ k, seriesLen (runSim ticks) k ≤ seriesLen (runSim (ticks ++ more)) k)
  ∧ (∀ k, (alookup (runSim ticks).edge_counts k).isSome →
        (alookup (runSim (ticks ++ more)).edge_counts k).isSome) := by
  refine ⟨?_, ?_, ?_⟩
  · unfold runSim applyTicks
    rw [List.foldl_append]
    show seriesLen (simTick (applyTicks initState ticks) t) e = _
    rw [seriesLen_simTick, seriesLen_applyTicks, count_sum_eq_countP hnd,
      List.count_eq_of_nodup ht]
    simp [seriesLen, initState, alookup, ha]
  · intro k
    unfold runSim applyTicks
    rw [List.foldl_append]
    show _ ≤ seriesLen (applyTicks (applyTicks initState ticks) more) k
    rw [seriesLen_applyTicks more]
    exact Nat.le_add_right _ _
  · intro k hk
    unfold runSim applyTicks
    rw [List.foldl_append]
    exact present_applyTicks more _ k hk

/-- C5 witness: in the scenario run, after the third step the series of
`edge1` has length 2 + 1 = 3. -/
theorem series_length_spec_witness :
    (∀ u ∈ [tick1, tick2], u.edges.Nodup) ∧ tick3.edges.Nodup ∧ "edge1" ∈ tick3.edges ∧
    seriesLen (runSim ([tick1, tick2] ++ [tick3])) "edge1" =
      ([tick1, tick2].countP fun u => decide ("edge1" ∈ u.edges)) + 1 :=
  ⟨by decide, by decide, by decide,
   (series_length_spec [tick1, tick2] [] tick3 "edge1" (by decide) (by decide) (by decide)).1⟩

/-- C6: `_calculate_metrics` is a pure read: it leaves the accumulator state
(all three series dicts and the step counter) unchanged, and calling it a
second time on the post-state returns the same result. -/
theorem calculate_metrics_idempotent (s : SimState) :
    (calculate_metrics_method s).2 = s
  ∧ (calculate_metrics_method ((calculate_metrics_method s).2)).1 =
      (calculate_metrics_method s).1
  ∧ (calculate_metrics_method s).2.edge_counts = s.edge_counts
  ∧ (calculate_metrics_method s).2.edge_speeds = s.edge_speeds
  ∧ (calculate_metrics_method s).2.edge_occupancy = s.edge_occupancy
  ∧ (calculate_metrics_method s).2.simulation_steps = s.simulation_steps :=
  ⟨rfl, rfl, rfl, rfl, rfl, rfl⟩

/-- C3: membership in the filtered set used by the console report is exactly
"id does not start with the reserved marker `':'` and `avg_vehicles`
exceeds the 0.1 threshold", regardless of the other fields; and the
visualization applies the very same filter. -/
theorem significant_edges_spec :
    (∀ (metrics : List (String × EdgeMetrics)) (p : String × EdgeMetrics),
        p ∈ significant_edges metrics ↔
          p ∈ metrics ∧ p.1.startsWith ":" = false ∧ (0.1 : ℚ) < p.2.avg_vehicles)
  ∧ (∀ metrics, visualization_edges metrics = significant_edges metrics) := by
  constructor
  · intro metrics p
    unfold significant_edges
    rw [List.mem_filter]
    simp [Bool.and_eq_true, Bool.not_eq_true', decide_eq_true_iff]
  · intro metrics
    rfl

/-- C3 witness: a concrete non-internal entity above the threshold passes the
filter. -/
theorem significant_edges_spec_witness :
    ("edge0", (⟨5, 5, 1, 0⟩ : EdgeMetrics)) ∈
      significant_edges [(":j0", ⟨7, 7, 1, 0⟩), ("edge0", ⟨5, 5, 1, 0⟩)] :=
  (significant_edges_spec.1 _ _).mpr
    ⟨by with_unfolding_all decide, by with_unfolding_all decide,
     by with_unfolding_all decide⟩

/-- C4: the displayed order is a permutation of the filtered mapping, sorted
descending by `avg_vehicles`, and the sort is stable (two entries with equal
averages keep their original relative order); in particular entities
A(avg=5), B(avg=5), C(avg=2) inserted in that order come out as
`[A, B, C]`. -/
theorem sorted_edges_spec :
    (∀ l : List (String × EdgeMetrics),
        (sorted_edges l).Perm l
      ∧ (sorted_edges l).Pairwise (fun p q => q.2.avg_vehicles ≤ p.2.avg_vehicles)
      ∧ (∀ p q, p.2.avg_vehicles = q.2.avg_vehicles →
          List.Sublist [p, q] l → List.Sublist [p, q] (sorted_edges l)))
  ∧ sorted_edges (significant_edges [eA, eB, eC]) = [eA, eB, eC] := by
  have htrans : ∀ a b c : String × EdgeMetrics,
      edge_le a b → edge_le b c → edge_le a c := by
    intro a b c hab hbc
    simp only [edge_le, decide_eq_true_iff] at *
    exact le_trans hbc hab
  have htotal : ∀ a b : String × EdgeMetrics, edge_le a b || edge_le b a := by
    intro a b
    simp only [edge_le, Bool.or_eq_true, decide_eq_true_iff]
    exact le_total _ _
  constructor
  · intro l
    refine ⟨List.mergeSort_perm l edge_le, ?_, ?_⟩
    · have hs := List.sorted_mergeSort htrans htotal l
      exact hs.imp fun hab => by
        simpa [edge_le, decide_eq_true_iff] using hab
    · intro p q heq hsub
      exact List.pair_sublist_mergeSort htrans htotal
        (by simp [edge_le, decide_eq_true_iff, heq]) hsub
  · with_unfolding_all decide

/-- C4 witness: the tie A-before-B is preserved by the sort on a concrete
list in which C precedes the tied pair. -/
theorem sorted_edges_spec_witness :
    eA.2.avg_vehicles = eB.2.avg_vehicles ∧ List.Sublist [eA, eB] [eC, eA, eB] ∧
    List.Sublist [eA, eB] (sorted_edges [eC, eA, eB]) :=
  ⟨by with_unfolding_all decide, by with_unfolding_all decide,
   (sorted_edges_spec.1 [eC, eA, eB]).2.2 eA eB
     (by with_unfolding_all decide) (by with_unfolding_all decide)⟩

/-- C10: when the filtered set of significant entities is empty, the summary
step of `print_results` raises (it indexes element 0 of the empty sorted list
and divides by the zero count) instead of producing a report; when at least
one significant entity exists the report is produced. -/
theorem print_results_empty_crash (steps : Nat) (metrics : List (String × EdgeMetrics)) :
    (significant_edges metrics = [] → print_results steps metrics = none)
  ∧ (significant_edges metrics ≠ [] → (print_results steps metrics).isSome) := by
  constructor
  · intro h
    unfold print_results sorted_edges
    rw [h]
    simp
  · intro h
    have hperm := List.mergeSort_perm (significant_edges metrics) edge_le
    have hlen : (sorted_edges (significant_edges metrics)).length =
        (significant_edges metrics).length := hperm.length_eq
    cases hhead : (sorted_edges (significant_edges metrics)).head? with
    | none =>
      exfalso
      apply h
      have hnil := List.head?_eq_none_iff.mp hhead
      have hz : (significant_edges metrics).length = 0 := by
        rw [← hlen, hnil]
        rfl
      exact List.length_eq_zero.mp hz
    | some top =>
      unfold print_results
      rw [hhead]
      rfl

/-- C10 witness: on a mapping whose entities are all internal or below the
threshold, the filtered set is empty and the report step fails. -/
theorem print_results_empty_crash_witness :
    significant_edges insignificantMetrics = [] ∧
    print_results 7 insignificantMetrics = none :=
  ⟨by with_unfolding_all decide,
   (print_results_empty_crash 7 insignificantMetrics).1 (by with_unfolding_all decide)⟩

/-- C7: an export write failure is contained inside that export: after the
export sequence of `main`, the JSON file is written whenever its own path is
writable — regardless of whether the CSV write failed — and symmetrically the
CSV file is written whenever its own path is writable; neither failure aborts
the sequence. -/
theorem export_failure_isolated (w : World) (config_path : String) (steps : Nat)
    (timestamp : String) (metrics : List (String × EdgeMetrics))
    (csv_name json_name : String) :
    (json_name ∉ w.bad →
      (json_name, FileData.jsonFile config_path steps timestamp metrics) ∈
        (run_exports w config_path steps timestamp metrics csv_name json_name).written)
  ∧ (csv_name ∉ w.bad →
      (csv_name, FileData.csvFile (csvTable metrics)) ∈
        (run_exports w config_path steps timestamp metrics csv_name json_name).written) := by
  unfold run_exports export_to_csv export_to_json writeFile
  by_cases hc : csv_name ∈ w.bad <;> by_cases hj : json_name ∈ w.bad <;>
    constructor <;> intro hmem <;> simp [hc, hj] at hmem ⊢

/-- C7 witness: with the CSV path unwritable and the JSON path writable, the
JSON export is still attempted and succeeds. -/
theorem export_failure_isolated_witness :
    "a.csv" ∈ (World.mk [] ["a.csv"]).bad ∧
    ("b.json", FileData.jsonFile "cfg" 5 "ts" []) ∈
      (run_exports ⟨[], ["a.csv"]⟩ "cfg" 5 "ts" [] "a.csv" "b.json").written :=
  ⟨by decide,
   (export_failure_isolated ⟨[], ["a.csv"]⟩ "cfg" 5 "ts" [] "a.csv" "b.json").1
     (by decide)⟩

/-- C8: the tabular export writes the header row
`edge_id, avg_vehicles, max_vehicles, avg_speed, avg_occupancy` followed by
exactly one row per entity of the unfiltered metrics mapping, in mapping
iteration order — including entities the console report filters out — and on
a writable path this table is what `export_to_csv` writes. -/
theorem export_to_csv_rows (metrics : List (String × EdgeMetrics)) (w : World)
    (filename : String) :
    (csvTable metrics).head? = some csv_fieldnames
  ∧ (csvTable metrics).drop 1 = metrics.map csvRow
  ∧ ((csvTable metrics).drop 1).map (fun r => r.head?) = metrics.map (fun p => some p.1)
  ∧ (∀ p ∈ metrics, p ∉ significant_edges metrics →
      csvRow p ∈ (csvTable metrics).drop 1)
  ∧ (filename ∉ w.bad →
      (filename, FileData.csvFile (csvTable metrics)) ∈
        (export_to_csv w metrics filename).written) := by
  refine ⟨rfl, rfl, ?_, ?_, ?_⟩
  · simp [csvTable, csvRow, List.map_map]
  · intro p hp hnotsig
    exact List.mem_map_of_mem csvRow hp
  · intro hgood
    unfold export_to_csv writeFile
    simp [hgood]

/-- C8 witness: an entity excluded from the report by the marker filter still
gets its row, and the table is written on a writable path. -/
theorem export_to_csv_rows_witness :
    csvRow (":a", ⟨7, 7, 1, 0⟩) ∈ (csvTable [(":a", ⟨7, 7, 1, 0⟩)]).drop 1 ∧
    ("f.csv", FileData.csvFile (csvTable [(":a", ⟨7, 7, 1, 0⟩)])) ∈
      (export_to_csv ⟨[], []⟩ [(":a", ⟨7, 7, 1, 0⟩)] "f.csv").written :=
  ⟨(export_to_csv_rows [(":a", ⟨7, 7, 1, 0⟩)] ⟨[], []⟩ "f.csv").2.2.2.1 _
     (by with_unfolding_all decide) (by with_unfolding_all decide),
   (export_to_csv_rows [(":a", ⟨7, 7, 1, 0⟩)] ⟨[], []⟩ "f.csv").2.2.2.2 (by decide)⟩

/-- C9: environment setup raises exactly when no truthy installation path is
passed, the `SUMO_HOME` environment variable is unset, and none of the probed
common installation paths exists; whenever one of these sources yields a
path, setup succeeds. -/
theorem setup_sumo_environment_fails_iff (env : OSEnv) (arg : Option String) :
    (∃ msg, setup_sumo_environment env arg = Except.error msg) ↔
      (truthy arg = false ∧ env.sumo_home = none ∧
        ∀ p ∈ common_paths, env.path_exists p = false) := by
  by_cases ht : truthy arg
  · simp [setup_sumo_environment, ht]
  · by_cases hs : env.sumo_home.isSome
    · simp [setup_sumo_environment, ht, hs, Option.isSome_iff_ne_none.mp hs]
    · have hnone : env.sumo_home = none := Option.not_isSome_iff_eq_none.mp hs
      cases hf : common_paths.find? env.path_exists with
      | none =>
        have hall := List.find?_eq_none.mp hf
        simp [setup_sumo_environment, ht, hs, hf, hnone]
        intro p hp
        simpa using hall p hp
      | some q =>
        have hmem := List.mem_of_find?_eq_some hf
        have htrue := List.find?_some hf
        simp [setup_sumo_environment, ht, hs, hf, hnone]
        exact ⟨q, hmem, htrue⟩

/-- C9 witness: with no argument, no environment variable and no existing
probe path, setup fails. -/
theorem setup_sumo_environment_fails_iff_witness :
    ∃ msg, setup_sumo_environment noSumoEnv none = Except.error msg :=
  (setup_sumo_environment_fails_iff noSumoEnv none).mpr ⟨rfl, rfl, by decide⟩

end TrafficSim
